import Mathlib

/-!
Shallow embedding of the test-execution engine of the
`competitive-programming-tester-cli` repository (Rust), covering
`src/test_data.rs` and `src/commands/run.rs`.

Modelling conventions:
* Rust `String` is Lean `String`; byte strings (`Vec<u8>`) are `List Nat`
  (each entry < 256).
* `HashMap<String, V>` is an association list `List (String × V)` observed
  only through `List.lookup`, key membership and iteration; its iteration
  order is arbitrary, which matches `HashMap`'s unspecified order.
* File-system and child-process effects are passed in explicitly: the file
  system is `String → Option (List Nat)` (path to contents), existence
  checks are `String → Bool`, and the behaviour of a spawned child process
  is a `CaseBehavior` value chosen by the environment.
* Rust panics (`unwrap` on `None`, `unreachable!`) are the `panicked`
  constructor of `RustResult` / `StepResult`, distinct from `Err` returns.
-/

/-- Rust `char::is_whitespace` (the Unicode `White_Space` property),
used by `str::trim` in the output comparison in `RunDir::run`. -/
def isRustWhitespace (c : Char) : Bool :=
  let n := c.toNat
  (9 ≤ n && n ≤ 13) || n = 32 || n = 133 || n = 160 || n = 5760 ||
  (8192 ≤ n && n ≤ 8202) || n = 8232 || n = 8233 || n = 8239 || n = 8287 || n = 12288

/-- Rust `str::trim`: removes leading and trailing whitespace of the whole
string (not per line). -/
def rustTrim (s : String) : String :=
  String.mk (((s.data.dropWhile isRustWhitespace).reverse.dropWhile isRustWhitespace).reverse)

/-- The pass/fail comparison of `RunDir::run` (run.rs line 184):
`case.get_output().trim() == output.trim()`. -/
def outputMatches (expected actual : String) : Bool :=
  rustTrim expected == rustTrim actual

/-- Value of a decimal digit list (most significant first). -/
def digitsVal (ds : List Char) : Nat :=
  ds.foldl (fun n c => n * 10 + (c.toNat - 48)) 0

/-- Rust `s.parse::<i32>()`: optional sign, then one or more ASCII digits,
result within the `i32` range; anything else fails.  This is the parser
used by `Test::get_sorted_case_names` on case names. -/
def parseI32 (s : String) : Option Int :=
  let step : Int × List Char :=
    match s.data with
    | c :: rest =>
        if c.toNat = 43 then (1, rest)
        else if c.toNat = 45 then (-1, rest)
        else (1, s.data)
    | [] => (1, [])
  let sign := step.1
  let ds := step.2
  if ds.isEmpty then none
  else if ds.all (fun c => c.isDigit) then
    let v : Int := sign * (digitsVal ds : Nat)
    if -2147483648 ≤ v ∧ v ≤ 2147483647 then some v else none
  else none

/-- Lexicographic comparison of character lists by code point.  For valid
Unicode strings this coincides with Rust's byte-wise `Ord for String`
(UTF-8 preserves code-point order). -/
def charsLe : List Char → List Char → Bool
  | [], _ => true
  | _ :: _, [] => false
  | a :: as, b :: bs =>
      if a.toNat < b.toNat then true
      else if b.toNat < a.toNat then false
      else charsLe as bs

/-- The sort key used by `get_sorted_case_names` when every name parses:
`c.parse::<i32>().unwrap()` (the `getD` default is never reached there). -/
def numKey (c : String) : Int :=
  (parseI32 c).getD 0

/-- Numeric order on case names (by parsed `i32` value). -/
def numLe (a b : String) : Prop :=
  numKey a ≤ numKey b

instance : DecidableRel numLe := fun a b => inferInstanceAs (Decidable (numKey a ≤ numKey b))

/-- Lexicographic order on case names, as a proposition. -/
def lexLe (a b : String) : Prop :=
  charsLe a.data b.data = true

instance : DecidableRel lexLe := fun a b => inferInstanceAs (Decidable (_ = true))

/-- `IOType` from test_data.rs: standard streams or a named file (the
`PathBuf` payload is a relative path, modelled as a `String`).
The source's constructor names are `STD` and `FILE`. -/
inductive IOType
  | STD : IOType
  | FILE (path : String) : IOType
deriving DecidableEq

/-- `TestCase` from test_data.rs: literal input/output text. -/
structure TestCase where
  input : String
  output : String
deriving DecidableEq

/-- `Test` from test_data.rs.  `cases` embeds the `HashMap<String, TestCase>`
as an association list (arbitrary iteration order, unique keys in practice);
`inputRouting`/`outputRouting` embed the `input_io`/`output_io` fields.
The `submission_type` metadata is opaque to the engine and omitted. -/
structure Test where
  cases : List (String × TestCase)
  input_extension : String
  output_extension : String
  inputRouting : IOType
  outputRouting : IOType
deriving DecidableEq

/-- `Test::get_sorted_case_names` (test_data.rs lines 67-79): if every case
name parses as an `i32` the names are sorted by parsed value, otherwise the
whole set is sorted lexicographically.  Rust's `sort`/`sort_by_key` is a
stable sort; it is embedded as the (stable) insertion sort, which produces
the same list. -/
def Test.get_sorted_case_names (t : Test) : List String :=
  let case_names := t.cases.map Prod.fst
  if case_names.all (fun c => (parseI32 c).isSome) then
    List.insertionSort numLe case_names
  else
    List.insertionSort lexLe case_names

/-- `Test::case_iter` (test_data.rs lines 183-187): the cases in sorted-name
order.  The source's `self.cases.get(*name).unwrap()` cannot fail because the
names come from the map's own keys; the embedding uses `filterMap`. -/
def Test.case_iter (t : Test) : List (String × TestCase) :=
  t.get_sorted_case_names.filterMap (fun n => (t.cases.lookup n).map (fun tc => (n, tc)))

/-- Insertion into the `HashMap` model: replaces any binding of the key and
otherwise adds one.  Only `lookup` and the key set are ever observed, and on
those this agrees with `HashMap::insert`. -/
def mapInsert {α : Type} (m : List (String × α)) (k : String) (v : α) : List (String × α) :=
  (k, v) :: m.filter (fun p => !(p.1 == k))

/-- Error message of `Test::set_cases` / `Test::print_case` for a missing
case name (test_data.rs line 165). -/
def caseNotFoundMsg (c : String) : String :=
  "Test case with name \"" ++ c ++ "\" does not exist"

/-- The loop of `Test::set_cases` (test_data.rs lines 161-167): build the new
map from the selected names, failing on the first name that is not a key of
the current map. -/
def setCasesGo (t : Test) (acc : List (String × TestCase)) :
    List String → Except String (List (String × TestCase))
  | [] => .ok acc
  | c :: rest =>
      match t.cases.lookup c with
      | some tc => setCasesGo t (mapInsert acc c tc) rest
      | none => .error (caseNotFoundMsg c)

/-- `Test::set_cases` (test_data.rs lines 158-171).  The Rust function
mutates `&mut self` and returns `Result<(), String>`; the embedding returns
the post-state together with the optional error.  `self.cases` is assigned
only after the loop finishes, so on error the post-state is the input. -/
def Test.set_cases (t : Test) (cases : Option (List String)) : Test × Option String :=
  match cases with
  | none => (t, none)
  | some cs =>
      match setCasesGo t [] cs with
      | .ok m => ({ t with cases := m }, none)
      | .error e => (t, some e)

/-- `PathBuf::join` for the relative paths this program uses. -/
def pathJoin (a b : String) : String :=
  a ++ "/" ++ b

/-- `Test::get_files` (test_data.rs lines 172-182): the optional input and
output file paths inside the working directory.  Note that the stored `FILE`
path is joined verbatim; no extension is added here. -/
def Test.get_files (t : Test) (temp_path : String) : Option String × Option String :=
  (match t.inputRouting with
   | .STD => none
   | .FILE p => some (pathJoin temp_path p),
   match t.outputRouting with
   | .STD => none
   | .FILE p => some (pathJoin temp_path p))

/-- Split a character list at its last `.` (code 46): `some (pre, post)`
with `cs = pre ++ dot ++ post` and no dot in `post`. -/
def splitAtLastDot : List Char → Option (List Char × List Char)
  | [] => none
  | c :: rest =>
      match splitAtLastDot rest with
      | some (pre, post) => some (c :: pre, post)
      | none => if c.toNat = 46 then some ([], rest) else none

/-- Rust `Path::file_stem` / `Path::extension` on a file name (no directory
separators): split at the last dot, except that a name whose only dot is the
leading one (a hidden file such as `.gitignore`) has no extension. -/
def rustFileStemExt (name : String) : String × Option String :=
  match splitAtLastDot name.data with
  | none => (name, none)
  | some (pre, post) =>
      if pre.isEmpty then (name, none)
      else (String.mk pre, some (String.mk post))

/-- Split a character list at its last `/` (code 47). -/
def splitAtLastSlash : List Char → Option (List Char × List Char)
  | [] => none
  | c :: rest =>
      match splitAtLastSlash rest with
      | some (pre, post) => some (c :: pre, post)
      | none => if c.toNat = 47 then some ([], rest) else none

/-- Rust `Path::file_name` of a path: the part after the last separator. -/
def rustFileName (p : String) : String :=
  match splitAtLastSlash p.data with
  | none => p
  | some (_, post) => String.mk post

/-- Rust `PathBuf::set_extension` applied to a file name: the portion after
the name's last dot (its current extension, if it has one) is replaced by
the new extension. -/
def rustSetExtension (name : String) (newExt : String) : String :=
  let stem := (rustFileStemExt name).1
  if newExt.isEmpty then stem else stem ++ "." ++ newExt

/-- UTF-8 encoding of one Unicode scalar value. -/
def utf8EncodeChar (c : Char) : List Nat :=
  let n := c.toNat
  if n < 128 then [n]
  else if n < 2048 then [192 + n / 64, 128 + n % 64]
  else if n < 65536 then [224 + n / 4096, 128 + n / 64 % 64, 128 + n % 64]
  else [240 + n / 262144, 128 + n / 4096 % 64, 128 + n / 64 % 64, 128 + n % 64]

/-- The UTF-8 bytes of a string, as written by `fs::write(path, &string)`. -/
def utf8Encode (s : String) : List Nat :=
  (s.data.map utf8EncodeChar).flatten

/-- A UTF-8 continuation byte. -/
def utf8Cont (b : Nat) : Bool :=
  128 ≤ b && b ≤ 191

/-- Strict UTF-8 decoding, as in Rust `String::from_utf8`: rejects overlong
encodings, surrogates and out-of-range values.  The fuel is the remaining
byte count; every step consumes at least one byte, so fuel never runs out
when started at the list length. -/
def utf8DecodeAux : Nat → List Nat → Option (List Char)
  | _, [] => some []
  | 0, _ :: _ => none
  | fuel + 1, b :: bs =>
      if b ≤ 127 then
        (utf8DecodeAux fuel bs).map (fun cs => Char.ofNat b :: cs)
      else if 194 ≤ b && b ≤ 223 then
        match bs with
        | b1 :: rest =>
            if utf8Cont b1 then
              (utf8DecodeAux fuel rest).map (fun cs => Char.ofNat ((b - 192) * 64 + (b1 - 128)) :: cs)
            else none
        | [] => none
      else if 224 ≤ b && b ≤ 239 then
        match bs with
        | b1 :: b2 :: rest =>
            let lo1 := if b = 224 then 160 else 128
            let hi1 := if b = 237 then 159 else 191
            if (lo1 ≤ b1 && b1 ≤ hi1) && utf8Cont b2 then
              (utf8DecodeAux fuel rest).map
                (fun cs => Char.ofNat ((b - 224) * 4096 + (b1 - 128) * 64 + (b2 - 128)) :: cs)
            else none
        | _ => none
      else if 240 ≤ b && b ≤ 244 then
        match bs with
        | b1 :: b2 :: b3 :: rest =>
            let lo1 := if b = 240 then 144 else 128
            let hi1 := if b = 244 then 143 else 191
            if (lo1 ≤ b1 && b1 ≤ hi1) && (utf8Cont b2 && utf8Cont b3) then
              (utf8DecodeAux fuel rest).map
                (fun cs =>
                  Char.ofNat ((b - 240) * 262144 + (b1 - 128) * 4096 + (b2 - 128) * 64 + (b3 - 128)) :: cs)
            else none
        | _ => none
      else none

/-- Rust `String::from_utf8` on a byte vector. -/
def utf8Decode (bs : List Nat) : Option String :=
  (utf8DecodeAux bs.length bs).map String.mk

/-- Lossy UTF-8 decoding, modelling `String::from_utf8_lossy`: invalid bytes
become U+FFFD.  (Rust replaces each maximal invalid subpart by one U+FFFD;
this model replaces each invalid byte, which agrees with Rust on every valid
input, the only inputs the theorems below use.) -/
def utf8LossyAux : Nat → List Nat → List Char
  | _, [] => []
  | 0, _ :: _ => []
  | fuel + 1, b :: bs =>
      if b ≤ 127 then Char.ofNat b :: utf8LossyAux fuel bs
      else if 194 ≤ b && b ≤ 223 then
        match bs with
        | b1 :: rest =>
            if utf8Cont b1 then Char.ofNat ((b - 192) * 64 + (b1 - 128)) :: utf8LossyAux fuel rest
            else Char.ofNat 65533 :: utf8LossyAux fuel bs
        | [] => [Char.ofNat 65533]
      else if 224 ≤ b && b ≤ 239 then
        match bs with
        | b1 :: b2 :: rest =>
            let lo1 := if b = 224 then 160 else 128
            let hi1 := if b = 237 then 159 else 191
            if (lo1 ≤ b1 && b1 ≤ hi1) && utf8Cont b2 then
              Char.ofNat ((b - 224) * 4096 + (b1 - 128) * 64 + (b2 - 128)) :: utf8LossyAux fuel rest
            else Char.ofNat 65533 :: utf8LossyAux fuel bs
        | _ => [Char.ofNat 65533]
      else if 240 ≤ b && b ≤ 244 then
        match bs with
        | b1 :: b2 :: b3 :: rest =>
            let lo1 := if b = 240 then 144 else 128
            let hi1 := if b = 244 then 143 else 191
            if (lo1 ≤ b1 && b1 ≤ hi1) && (utf8Cont b2 && utf8Cont b3) then
              Char.ofNat ((b - 240) * 262144 + (b1 - 128) * 4096 + (b2 - 128) * 64 + (b3 - 128)) ::
                utf8LossyAux fuel rest
            else Char.ofNat 65533 :: utf8LossyAux fuel bs
        | _ => [Char.ofNat 65533]
      else Char.ofNat 65533 :: utf8LossyAux fuel bs

/-- Rust `String::from_utf8_lossy` on a byte vector. -/
def utf8Lossy (bs : List Nat) : String :=
  String.mk (utf8LossyAux bs.length bs)

/-- Error message of `Test::fill_cases` when the directory scan finds zero
input/output pairs (test_data.rs lines 127-132). -/
def noCasesMsg (inExt outExt : String) : String :=
  "No test cases found(Input extension is \"." ++ inExt ++
    "\", Output extension is \"." ++ outExt ++ "\")"

/-- `handle_error!` message layout: custom text, then the OS error.  The OS
error text is environment-dependent and abstracted as empty. -/
def handleErrMsg (custom : String) : String :=
  custom ++ ": \nError Data: "

/-- The acceptance test of `Test::fill_cases` for one directory entry
(test_data.rs lines 110-126): the entry is accepted when its extension
equals the input extension and the path obtained by
`set_extension(output_extension)` on the entry's *stem* exists as a sibling.
Returns the `(input file name, output file name)` pair when accepted. -/
def fillAccept (t : Test) (folder : String) (fsExists : String → Bool)
    (name : String) : Option (String × String) :=
  match (rustFileStemExt name).2 with
  | some ext =>
      if ext = t.input_extension then
        let outName := rustSetExtension (rustFileStemExt name).1 t.output_extension
        if fsExists (pathJoin folder outName) then some (name, outName) else none
      else none
  | none => none

/-- The accepted input/output pairs of the directory scan (the
`test_case_files` vector of `Test::fill_cases`). -/
def fillPairs (t : Test) (folder : String) (entries : List String)
    (fsExists : String → Bool) : List (String × String) :=
  entries.filterMap (fillAccept t folder fsExists)

/-- Rust-style result: `Ok`, `Err msg`, or a panic. -/
inductive RustResult (α : Type)
  | ok (a : α) : RustResult α
  | err (msg : String) : RustResult α
  | panicked : RustResult α
deriving DecidableEq

/-- The read/insert loop of `Test::fill_cases` (test_data.rs lines 133-142):
read input and output files, decode them as UTF-8 (`TestCase::new`), and
insert under the input file's stem. -/
def fillLoop (folder : String) (contents : String → Option (List Nat)) :
    List (String × String) → List (String × TestCase) → RustResult (List (String × TestCase))
  | [], acc => .ok acc
  | (inName, outName) :: rest, acc =>
      let name := (rustFileStemExt inName).1
      match contents (pathJoin folder inName) with
      | none => .err (handleErrMsg "Invalid input file, can't read file")
      | some ibytes =>
          match contents (pathJoin folder outName) with
          | none => .err (handleErrMsg "Invalid output file, can't read file")
          | some obytes =>
              match utf8Decode ibytes with
              | none => .err (handleErrMsg "Invalid input data for a test case")
              | some i =>
                  match utf8Decode obytes with
                  | none => .err (handleErrMsg "Invalid output data for a test case")
                  | some o => fillLoop folder contents rest (mapInsert acc name ⟨i, o⟩)

/-- `Test::fill_cases` (test_data.rs lines 98-144).  The directory is given
as its entry names plus an existence predicate and a contents map; read
errors are the `none` contents.  Entries lacking the computed sibling output
file are dropped by `fillPairs`; if no pair at all survives, the scan is a
fatal error for the Test. -/
def Test.fill_cases (t : Test) (folder : String) (entries : List String)
    (fsExists : String → Bool) (contents : String → Option (List Nat)) : RustResult Test :=
  let pairs := fillPairs t folder entries fsExists
  if pairs.isEmpty then
    .err (noCasesMsg t.input_extension t.output_extension)
  else
    match fillLoop folder contents pairs t.cases with
    | .ok m => .ok { t with cases := m }
    | .err e => .err e
    | .panicked => .panicked

/-- The fields of `Config` (config.rs) that the run command consumes.  Flag
maps are association lists; their iteration order is arbitrary, matching
`HashMap`. -/
structure ConfigM where
  gcc_flags : List (String × String)
  gpp_flags : List (String × String)
  unicode_output : Bool
deriving DecidableEq

/-- Flag rendering of `Config::get_gcc_command` et al.: `flag` when the
value is empty, `flag=value` otherwise. -/
def renderFlag (p : String × String) : String :=
  p.1 ++ (if p.2.isEmpty then "" else "=" ++ p.2)

/-- A `std::process::Command` as this program configures one: program name,
arguments, optional stdin redirection, whether stdout is piped, and the
working directory.  `Command::spawn` leaves stdout inherited (so the child
handle's `stdout` is `None`) unless `stdoutPiped` is set — and nothing in
run.rs ever sets it. -/
structure CommandCfg where
  program : String
  args : List String
  stdinFile : Option String
  stdoutPiped : Bool
  currentDir : Option String
deriving DecidableEq

/-- `Config::get_gcc_command`: `gcc` plus the rendered configured flags. -/
def gccCommand (c : ConfigM) : CommandCfg :=
  { program := "gcc", args := c.gcc_flags.map renderFlag,
    stdinFile := none, stdoutPiped := false, currentDir := none }

/-- `Config::get_gpp_command`: `g++` plus the rendered configured flags. -/
def gppCommand (c : ConfigM) : CommandCfg :=
  { program := "g++", args := c.gpp_flags.map renderFlag,
    stdinFile := none, stdoutPiped := false, currentDir := none }

/-- What `Command::output()` returns for a compiler invocation: exit code
and captured stdout/stderr bytes.  (The spawn itself is modelled as always
succeeding; a missing toolchain is out of scope of the claims.) -/
structure CompilerResult where
  exitCode : Int
  stdoutBytes : List Nat
  stderrBytes : List Nat

/-- The compile-failure message of `RunCommand::new` for C++ sources
(run.rs lines 211-216), with the captured compiler output decoded by
`String::from_utf8_lossy`. -/
def compileFailMsg (code : Int) (out errText : String) : String :=
  "Failed to compile file, exited with non-zero exit code: " ++ toString code ++
    "\nStdout: " ++ out ++ "\nStderr: " ++ errText

/-- The missing-class-file message of `RunCommand::new` for Java sources
(run.rs lines 238-241). -/
def classFileMsg (classPath : String) : String :=
  "Failed to find class file: \"" ++ classPath ++
    "\". Class name should be the same as the file name"

/-- `RunCommand::new` (run.rs lines 194-256).  `file_path` is the
canonicalized source path; `compilerRun` is the environment's response to
running a compiler command; `fsExists` answers `Path::exists`.
Branch by extension:
* `cpp`: run `g++` with flags, `-o <temp>/output`, `-std=c++<ver>`, the
  file; a non-zero compiler exit is an `Err` carrying the lossy-decoded
  stdout/stderr; otherwise the run command is `./output`.
* `c`: run `gcc` with flags, `-o <temp>/output`, the file; the compiler's
  exit status is never inspected (only a spawn failure would error), and
  the run command is `./output` regardless.
* `java`: run `javac <file> -d <temp>` (exit status again not inspected),
  then require `<temp>/<stem>.class` to exist; the run command is `java`
  with the class file's *file name* (`<stem>.class`) as argument.
* `py`: no compile step; `python3 -O <file>`.
The `cpp_ver.parse().unwrap()` and `extension().unwrap()` panics are the
`panicked` result. -/
def RunCommand.new (temp_path : String) (file_path : String) (cpp_ver : String)
    (config : ConfigM) (compilerRun : CommandCfg → CompilerResult)
    (fsExists : String → Bool) : RustResult CommandCfg :=
  match (rustFileStemExt (rustFileName file_path)).2 with
  | none => .panicked
  | some ext =>
      if ext = "cpp" then
        match parseI32 cpp_ver with
        | none => .panicked
        | some ver =>
            let cc0 := gppCommand config
            let cc := { cc0 with
              args := cc0.args ++ ["-o", pathJoin temp_path "output",
                                   "-std=c++" ++ toString ver, file_path] }
            let out := compilerRun cc
            if out.exitCode ≠ 0 then
              .err (compileFailMsg out.exitCode (utf8Lossy out.stdoutBytes)
                      (utf8Lossy out.stderrBytes))
            else
              .ok { program := "./output", args := [],
                    stdinFile := none, stdoutPiped := false, currentDir := none }
      else if ext = "c" then
        let cc0 := gccCommand config
        let cc := { cc0 with
          args := cc0.args ++ ["-o", pathJoin temp_path "output", file_path] }
        let _ := compilerRun cc
        .ok { program := "./output", args := [],
              stdinFile := none, stdoutPiped := false, currentDir := none }
      else if ext = "java" then
        let cc : CommandCfg :=
          { program := "javac", args := [file_path, "-d", temp_path],
            stdinFile := none, stdoutPiped := false, currentDir := none }
        let _ := compilerRun cc
        let stem := (rustFileStemExt (rustFileName file_path)).1
        let className := rustSetExtension stem "class"
        let classPath := pathJoin temp_path className
        if !(fsExists classPath) then
          .err (classFileMsg classPath)
        else
          .ok { program := "java", args := [className],
                stdinFile := none, stdoutPiped := false, currentDir := none }
      else if ext = "py" then
        .ok { program := "python3", args := ["-O", file_path],
              stdinFile := none, stdoutPiped := false, currentDir := none }
      else .panicked

/-- The `RunDir` state (run.rs lines 53-64); the `TempDir` handle is its
path. -/
structure RunDirM where
  temp_dir : String
  run_command : CommandCfg
  input_file : Option String
  output_file : Option String
  show_input : Bool
  compare_output : Bool
  test : Test
  unicode_output : Bool
  timeout : Nat
deriving DecidableEq

/-- A file system snapshot: path to byte contents (`none` = absent). -/
def FileSys : Type := String → Option (List Nat)

/-- `fs::write`. -/
def fsWrite (fs : FileSys) (p : String) (bytes : List Nat) : FileSys :=
  fun q => if q == p then some bytes else fs q

/-- The input materialization of one case (run.rs lines 119-126): the file
system right before the child is spawned.  With file routing the input text
is written to the routed path; with standard routing it is written to
`<temp>/tmp.in` (which is then opened as the child's stdin). -/
def launchFs (rd : RunDirM) (fs : FileSys) (tc : TestCase) : FileSys :=
  match rd.input_file with
  | some f => fsWrite fs f (utf8Encode tc.input)
  | none => fsWrite fs (pathJoin rd.temp_dir "tmp.in") (utf8Encode tc.input)

/-- The command configuration of one case (run.rs lines 119-127): stdin is
redirected to the temp input file only with standard input routing, and the
current directory is set to the session's temp directory.  Stdout is never
piped. -/
def launchCfg (rd : RunDirM) : CommandCfg :=
  match rd.input_file with
  | some _ => { rd.run_command with currentDir := some rd.temp_dir }
  | none =>
      { rd.run_command with
        stdinFile := some (pathJoin rd.temp_dir "tmp.in"),
        currentDir := some rd.temp_dir }

/-- Environment-chosen behaviour of one spawned child process: whether it
outlives the timeout, whether it was killed by a signal, its exit code,
what it wrote to its stdout stream, and the file system visible after it
ran (used when output routing reads a file). -/
structure CaseBehavior where
  timedOut : Bool
  signaled : Bool
  exitCode : Int
  stdoutBytes : List Nat
  filesAfter : String → Option (List Nat)

/-- What run.rs prints for one completed case: its name and the pass/fail
verdict from the trim comparison (run.rs lines 155-188).  Timing is
wall-clock and not modelled. -/
structure Verdict where
  name : String
  passed : Bool
deriving DecidableEq

/-- Result of running one case: a verdict, an `Err` that aborts the session,
or a panic. -/
inductive StepResult
  | ok (v : Verdict) : StepResult
  | err (msg : String) : StepResult
  | panicked : StepResult
deriving DecidableEq

/-- The timeout error of `RunDir::run` (run.rs lines 135-140): it reports
the timeout value but not the case name. -/
def timeoutMsg (timeout : Nat) : String :=
  "\nProgram timed out after " ++ toString timeout ++
    " milliseconds, if you want to change the timeout, use the --timeout flag"

/-- The non-zero-exit error of `RunDir::run` (run.rs line 147): it reports
the exit code but not the case name. -/
def nonZeroExitMsg (code : Int) : String :=
  "\nProgram exited with non-zero exit code: " ++ toString code

/-- One iteration of the loop in `RunDir::run` (run.rs lines 117-188):
materialize input, spawn, wait with timeout, then
* timeout → session error naming only the timeout value;
* killed by a signal → `exit_status.code().unwrap()` panics;
* non-zero exit → session error naming only the exit code;
* success → capture output: from the designated output file when output
  routing is a file, otherwise from `child.stdout.take().unwrap()` — which
  panics, because stdout was never piped;
* decode as UTF-8 and compare trimmed outputs for the verdict. -/
def runCase (rd : RunDirM) (name : String) (tc : TestCase) (beh : CaseBehavior) : StepResult :=
  let cfg := launchCfg rd
  if beh.timedOut then .err (timeoutMsg rd.timeout)
  else if beh.signaled then .panicked
  else if beh.exitCode ≠ 0 then .err (nonZeroExitMsg beh.exitCode)
  else
    let captured : RustResult (List Nat) :=
      match rd.output_file with
      | some f =>
          match beh.filesAfter f with
          | some bytes => .ok bytes
          | none => .err (handleErrMsg "\nFailed to read from output file, test case")
      | none =>
          if cfg.stdoutPiped then .ok beh.stdoutBytes else .panicked
    match captured with
    | .err e => .err e
    | .panicked => .panicked
    | .ok bytes =>
        match utf8Decode bytes with
        | none => .err (handleErrMsg "Failed to turn output into valid UTF-8")
        | some out => .ok { name := name, passed := outputMatches tc.output out }

/-- How a session ends: all cases completed, an `Err(msg)`, or a panic. -/
inductive SessionEnd
  | normal : SessionEnd
  | failed (msg : String) : SessionEnd
  | panicked : SessionEnd
deriving DecidableEq

/-- The loop of `RunDir::run` over the sorted cases: verdicts are printed
as they happen, and the first `Err` or panic stops the session with no
further case run. -/
def runList (rd : RunDirM) (beh : String → CaseBehavior) :
    List (String × TestCase) → List Verdict × SessionEnd
  | [] => ([], .normal)
  | (n, tc) :: rest =>
      match runCase rd n tc (beh n) with
      | .ok v =>
          let r := runList rd beh rest
          (v :: r.1, r.2)
      | .err m => ([], .failed m)
      | .panicked => ([], .panicked)

/-- `RunDir::run` (run.rs lines 116-191): run every case of the test in
`case_iter` order. -/
def RunDir.run (rd : RunDirM) (beh : String → CaseBehavior) : List Verdict × SessionEnd :=
  runList rd beh rd.test.case_iter

/-- `RunDir::new` (run.rs lines 97-115): restrict the cloned test to the
selected cases, resolve the run command (compiling if needed), and compute
the routed file paths.  An error from either step is terminal: the caller
(`ProgramData::run`) then never calls `RunDir::run`, so no case executes. -/
def RunDir.new (test : Test) (argCases : Option (List String)) (file : String)
    (cpp_ver : String) (show_input compare_output : Bool) (timeout : Nat)
    (config : ConfigM) (temp_dir : String)
    (compilerRun : CommandCfg → CompilerResult) (fsExists : String → Bool) :
    RustResult RunDirM :=
  match test.set_cases argCases with
  | (_, some e) => .err e
  | (t, none) =>
      match RunCommand.new temp_dir file cpp_ver config compilerRun fsExists with
      | .err e => .err e
      | .panicked => .panicked
      | .ok cmd =>
          let files := t.get_files temp_dir
          .ok { temp_dir := temp_dir, run_command := cmd,
                input_file := files.1, output_file := files.2,
                show_input := show_input, compare_output := compare_output,
                test := t, unicode_output := config.unicode_output,
                timeout := timeout }

/-- `r.isOk`: did the call succeed? -/
def RustResult.isOk {α : Type} : RustResult α → Bool
  | .ok _ => true
  | _ => false

/-- Bool test: does `needle` occur as a contiguous run inside `hay`? -/
def hasSub (hay needle : List Char) : Bool :=
  match hay with
  | [] => needle.isEmpty
  | _ :: rest => needle.isPrefixOf hay || hasSub rest needle

/-- Bool test: does the string `hay` contain `needle` as a substring? -/
def strContains (hay needle : String) : Bool :=
  hasSub hay.data needle.data

/-- The verdict a case produces when its step succeeds (used to describe the
output of the session loop). -/
def okVerdict (rd : RunDirM) (beh : String → CaseBehavior) (p : String × TestCase) :
    Option Verdict :=
  match runCase rd p.1 p.2 (beh p.1) with
  | .ok v => some v
  | _ => none

/-- An empty test case used by the concrete fixtures below. -/
def tc0 : TestCase :=
  { input := "", output := "" }

/-- Fixture: a test with the single case `1`, standard I/O routing. -/
def oneCaseTest : Test :=
  { cases := [("1", tc0)], input_extension := "in", output_extension := "out",
    inputRouting := .STD, outputRouting := .STD }

/-- Fixture: all-numeric case names, in arbitrary map order. -/
def exNumTest : Test :=
  { cases := [("2", tc0), ("10", tc0), ("1", tc0)],
    input_extension := "in", output_extension := "out",
    inputRouting := .STD, outputRouting := .STD }

/-- Fixture: non-numeric case names, in arbitrary map order. -/
def exLexTest : Test :=
  { cases := [("b", tc0), ("a10", tc0), ("a2", tc0)],
    input_extension := "in", output_extension := "out",
    inputRouting := .STD, outputRouting := .STD }

/-- Fixture: a test with the single case `zebra`, standard I/O routing. -/
def zebraTest : Test :=
  { cases := [("zebra", tc0)], input_extension := "in", output_extension := "out",
    inputRouting := .STD, outputRouting := .STD }

/-- Fixture: an empty flag configuration. -/
def cfg0 : ConfigM :=
  { gcc_flags := [], gpp_flags := [], unicode_output := false }

/-- Fixture: a compiler environment in which every invocation succeeds. -/
def okCompiler : CommandCfg → CompilerResult :=
  fun _ => { exitCode := 0, stdoutBytes := [], stderrBytes := [] }

/-- Fixture: a compiler environment in which every invocation exits with
code 1 and writes `boom` to stderr. -/
def failCompiler : CommandCfg → CompilerResult :=
  fun _ => { exitCode := 1, stdoutBytes := [], stderrBytes := utf8Encode "boom" }

/-- Fixture: the resolved run command for `/home/u/sol.py`. -/
def pyCmd : CommandCfg :=
  { program := "python3", args := ["-O", "/home/u/sol.py"],
    stdinFile := none, stdoutPiped := false, currentDir := none }

/-- Fixture: the session state for `oneCaseTest` with standard routing. -/
def rdStd : RunDirM :=
  { temp_dir := "/tmp/t", run_command := pyCmd, input_file := none,
    output_file := none, show_input := false, compare_output := false,
    test := oneCaseTest, unicode_output := false, timeout := 1000 }

/-- Fixture: the session state for `zebraTest`, timeout 100 ms. -/
def rdZebra : RunDirM :=
  { temp_dir := "/tmp/t", run_command := pyCmd, input_file := none,
    output_file := none, show_input := false, compare_output := false,
    test := zebraTest, unicode_output := false, timeout := 100 }

/-- Fixture: every case's child exits 0 immediately and writes `7` to its
standard output. -/
def behCapture : String → CaseBehavior :=
  fun _ => { timedOut := false, signaled := false, exitCode := 0,
             stdoutBytes := utf8Encode "7\n", filesAfter := fun _ => none }

/-- Fixture: every case's child outlives the timeout. -/
def behTimedOut : String → CaseBehavior :=
  fun _ => { timedOut := true, signaled := false, exitCode := 0,
             stdoutBytes := [], filesAfter := fun _ => none }

/-- Fixture: every case's child exits with code 3 within the timeout. -/
def behExit3 : String → CaseBehavior :=
  fun _ => { timedOut := false, signaled := false, exitCode := 3,
             stdoutBytes := [], filesAfter := fun _ => none }

/-- Fixture: a test whose input routing is the file `data` (no extension in
the stored path) with input extension `in`, one case with input `42`. -/
def fileRoutedTest : Test :=
  { cases := [("1", { input := "42\n", output := "" })],
    input_extension := "in", output_extension := "out",
    inputRouting := .FILE "data", outputRouting := .STD }

/-- Fixture: the session state for `fileRoutedTest` (its `input_file` is
exactly what `Test::get_files` returns for temp dir `/tmp/t`). -/
def rd8 : RunDirM :=
  { temp_dir := "/tmp/t", run_command := pyCmd,
    input_file := some (pathJoin "/tmp/t" "data"), output_file := none,
    show_input := false, compare_output := false,
    test := fileRoutedTest, unicode_output := false, timeout := 1000 }

/-- Fixture: an empty test with extensions `in`/`out` for the directory-scan
claims. -/
def dottedTest : Test :=
  { cases := [], input_extension := "in", output_extension := "out",
    inputRouting := .STD, outputRouting := .STD }

/-- Fixture: a directory holding `a.b.in` and `a.out` — and, notably, no
`a.b.out`. -/
def dottedEntries : List String :=
  ["a.b.in", "a.out"]

/-- Existence predicate of the `dottedEntries` directory (folder `f`). -/
def dottedFsExists : String → Bool :=
  fun p => p == "f/a.b.in" || p == "f/a.out"

/-- Contents of the `dottedEntries` directory (folder `f`). -/
def dottedContents : String → Option (List Nat) :=
  fun p =>
    if p == "f/a.b.in" then some (utf8Encode "1")
    else if p == "f/a.out" then some (utf8Encode "2")
    else none

/-- Fixture: the file-existence environment of a Java session whose class
file `Main.class` was produced in the temp dir `/tmp/t`. -/
def fsJava : String → Bool :=
  fun p => p == "/tmp/t/Main.class"

/-- Fixture: the session state of a Java run (run command `java Main.class`)
in temp dir `/tmp/t`. -/
def rdJava : RunDirM :=
  { temp_dir := "/tmp/t",
    run_command := { program := "java", args := ["Main.class"],
                     stdinFile := none, stdoutPiped := false, currentDir := none },
    input_file := none, output_file := none, show_input := false,
    compare_output := false, test := oneCaseTest, unicode_output := false,
    timeout := 1000 }

/-- Bool test: is this result exactly `Err msg`? -/
def RustResult.isErrWith {α : Type} (r : RustResult α) (m : String) : Bool :=
  match r with
  | .err e => e == m
  | _ => false

theorem charsLe_total : ∀ a b : List Char, charsLe a b = true ∨ charsLe b a = true
  | [], _ => Or.inl rfl
  | _ :: _, [] => Or.inr rfl
  | a :: as, b :: bs => by
      simp only [charsLe]
      rcases Nat.lt_trichotomy a.toNat b.toNat with h | h | h
      · left; simp [h]
      · have hba : ¬ b.toNat < a.toNat := by omega
        have hab : ¬ a.toNat < b.toNat := by omega
        rcases charsLe_total as bs with ih | ih
        · left; simp [hab, hba, ih]
        · right; simp [hab, hba, ih]
      · right; simp [h]

theorem charsLe_trans : ∀ a b c : List Char,
    charsLe a b = true → charsLe b c = true → charsLe a c = true
  | [], _, _ => by intro _ _; rfl
  | _ :: _, [], _ => by intro h _; simp [charsLe] at h
  | _ :: _, _ :: _, [] => by intro _ h; simp [charsLe] at h
  | a :: as, b :: bs, c :: cs => by
      intro h1 h2
      simp only [charsLe] at h1 h2 ⊢
      rcases Nat.lt_trichotomy a.toNat b.toNat with hab | hab | hab <;>
        rcases Nat.lt_trichotomy b.toNat c.toNat with hbc | hbc | hbc
      all_goals first
        | (have : a.toNat < c.toNat := by omega
           simp [this])
        | (have h3 : ¬ a.toNat < b.toNat := by omega
           have h4 : b.toNat < a.toNat := by omega
           simp [h3, h4] at h1)
        | (have h3 : ¬ b.toNat < c.toNat := by omega
           have h4 : c.toNat < b.toNat := by omega
           simp [h3, h4] at h2)
        | (have hac : a.toNat = c.toNat := by omega
           have h3 : ¬ a.toNat < b.toNat := by omega
           have h4 : ¬ b.toNat < a.toNat := by omega
           have h5 : ¬ b.toNat < c.toNat := by omega
           have h6 : ¬ c.toNat < b.toNat := by omega
           have h7 : ¬ a.toNat < c.toNat := by omega
           have h8 : ¬ c.toNat < a.toNat := by omega
           simp [h3, h4] at h1
           simp [h5, h6] at h2
           simp [h7, h8]
           exact charsLe_trans as bs cs h1 h2)

theorem lookup_filter_ne {α : Type} (m : List (String × α)) (k k' : String) (h : ¬ k' = k) :
    (m.filter (fun p => !(p.1 == k))).lookup k' = m.lookup k' := by
  induction m with
  | nil => rfl
  | cons p rest ih =>
      obtain ⟨a, v⟩ := p
      by_cases hp : a = k
      · subst hp
        have hk : (k' == a) = false := beq_false_of_ne h
        simp [List.lookup_cons, hk, ih]
      · have hpk : (!(a == k)) = true := by simp [hp]
        by_cases hk : k' = a
        · subst hk
          simp [List.filter_cons, hpk, List.lookup_cons]
        · have hk2 : (k' == a) = false := beq_false_of_ne hk
          simp [List.filter_cons, hpk, List.lookup_cons, hk2, ih]

theorem lookup_mapInsert {α : Type} (m : List (String × α)) (k : String) (v : α) (k' : String) :
    (mapInsert m k v).lookup k' = if k' = k then some v else m.lookup k' := by
  by_cases h : k' = k
  · subst h
    simp [mapInsert, List.lookup_cons]
  · have hk : (k' == k) = false := beq_false_of_ne h
    simp [mapInsert, List.lookup_cons, hk, h, lookup_filter_ne m k k' h]

theorem setCasesGo_ok (t : Test) (cs : List String) :
    ∀ acc, (∀ c ∈ cs, (t.cases.lookup c).isSome = true) →
    ∃ m, setCasesGo t acc cs = .ok m ∧
      ∀ k, m.lookup k = if cs.contains k then t.cases.lookup k else acc.lookup k := by
  induction cs with
  | nil =>
      intro acc _
      exact ⟨acc, rfl, fun k => by simp [List.contains]⟩
  | cons c rest ih =>
      intro acc h
      have hc := h c (List.mem_cons_self _ _)
      obtain ⟨tc, htc⟩ := Option.isSome_iff_exists.mp hc
      obtain ⟨m, hm, hl⟩ := ih (mapInsert acc c tc) (fun x hx => h x (List.mem_cons_of_mem _ hx))
      refine ⟨m, by simp [setCasesGo, htc, hm], ?_⟩
      intro k
      rw [hl k, lookup_mapInsert]
      by_cases hk : k ∈ rest
      · have hc1 : rest.contains k = true := List.elem_eq_true_of_mem hk
        have hc2 : (c :: rest).contains k = true :=
          List.elem_eq_true_of_mem (List.mem_cons_of_mem _ hk)
        simp [hc1, hc2, hk]
      · have hc1 : rest.contains k = false := by
          cases hcc : rest.contains k
          · rfl
          · exact absurd (List.elem_iff.mp hcc) hk
        by_cases hkc : k = c
        · subst hkc
          have hc2 : (k :: rest).contains k = true :=
            List.elem_eq_true_of_mem (List.mem_cons_self _ _)
          simp [hc1, hc2, htc, hk]
        · have hc2 : (c :: rest).contains k = false := by
            cases hcc : (c :: rest).contains k
            · rfl
            · rcases List.mem_cons.mp (List.elem_iff.mp hcc) with h1 | h1
              · exact absurd h1 hkc
              · exact absurd h1 hk
          simp [hc1, hc2, hkc, hk]

theorem setCasesGo_err (t : Test) (cs : List String) :
    ∀ acc, (∃ c ∈ cs, t.cases.lookup c = none) →
    ∃ c, c ∈ cs ∧ t.cases.lookup c = none ∧
      setCasesGo t acc cs = .error (caseNotFoundMsg c) := by
  induction cs with
  | nil =>
      intro acc h
      obtain ⟨c, hc, _⟩ := h
      simp at hc
  | cons c rest ih =>
      intro acc h
      cases htc : t.cases.lookup c with
      | none =>
          exact ⟨c, List.mem_cons_self _ _, htc, by simp [setCasesGo, htc]⟩
      | some tc =>
          have hrest : ∃ x ∈ rest, t.cases.lookup x = none := by
            obtain ⟨x, hx, hnx⟩ := h
            rcases List.mem_cons.mp hx with rfl | hx'
            · rw [htc] at hnx; cases hnx
            · exact ⟨x, hx', hnx⟩
          obtain ⟨x, hx, hnx, hrun⟩ := ih (mapInsert acc c tc) hrest
          exact ⟨x, List.mem_cons_of_mem _ hx, hnx, by simp [setCasesGo, htc, hrun]⟩

theorem runList_append_ok (rd : RunDirM) (beh : String → CaseBehavior)
    (pre rest : List (String × TestCase))
    (h : ∀ p ∈ pre, ∃ v, runCase rd p.1 p.2 (beh p.1) = .ok v) :
    runList rd beh (pre ++ rest) =
      (pre.filterMap (okVerdict rd beh) ++ (runList rd beh rest).1,
       (runList rd beh rest).2) := by
  induction pre with
  | nil => simp
  | cons p pre ih =>
      obtain ⟨v, hv⟩ := h p (List.mem_cons_self _ _)
      have ih2 := ih (fun q hq => h q (List.mem_cons_of_mem _ hq))
      obtain ⟨n, tc⟩ := p
      simp only [List.cons_append, runList, hv, List.filterMap_cons, okVerdict]
      simp [hv, ih2]

theorem isInfix_append_mid (pre mid post : String) :
    List.IsInfix mid.data (pre ++ mid ++ post).data :=
  ⟨pre.data, post.data, by simp [String.data_append]⟩

theorem isInfix_append_end (pre mid : String) :
    List.IsInfix mid.data (pre ++ mid).data :=
  ⟨pre.data, [], by simp [String.data_append]⟩

theorem fillAccept_some (t : Test) (folder : String) (fsExists : String → Bool)
    (a : String) (pr : String × String)
    (h : fillAccept t folder fsExists a = some pr) :
    pr.1 = a ∧ (rustFileStemExt a).2 = some t.input_extension ∧
      fsExists (pathJoin folder
        (rustSetExtension (rustFileStemExt a).1 t.output_extension)) = true := by
  unfold fillAccept at h
  cases hext : (rustFileStemExt a).2 with
  | none => simp [hext] at h
  | some ext =>
      simp only [hext] at h
      by_cases he : ext = t.input_extension
      · simp only [if_pos he] at h
        by_cases hf : fsExists (pathJoin folder
            (rustSetExtension (rustFileStemExt a).1 t.output_extension)) = true
        · simp only [hf, if_true] at h
          obtain rfl := Option.some.inj h
          exact ⟨rfl, by rw [he], hf⟩
        · have hf2 : fsExists (pathJoin folder
              (rustSetExtension (rustFileStemExt a).1 t.output_extension)) = false := by
            cases hx : fsExists (pathJoin folder
              (rustSetExtension (rustFileStemExt a).1 t.output_extension))
            · rfl
            · exact absurd hx hf
          simp [hf2] at h
      · simp [he] at h

theorem fillLoop_err (folder : String) (contents : String → Option (List Nat)) :
    ∀ (ps : List (String × String)) (acc : List (String × TestCase)) (m : String),
    fillLoop folder contents ps acc = .err m →
      m = handleErrMsg "Invalid input file, can't read file" ∨
      m = handleErrMsg "Invalid output file, can't read file" ∨
      m = handleErrMsg "Invalid input data for a test case" ∨
      m = handleErrMsg "Invalid output data for a test case" := by
  intro ps
  induction ps with
  | nil =>
      intro acc m h
      simp [fillLoop] at h
  | cons p rest ih =>
      intro acc m h
      obtain ⟨inN, outN⟩ := p
      simp only [fillLoop] at h
      cases h1 : contents (pathJoin folder inN) with
      | none => simp only [h1] at h; cases h; exact Or.inl rfl
      | some ibytes =>
          simp only [h1] at h
          cases h2 : contents (pathJoin folder outN) with
          | none => simp only [h2] at h; cases h; exact Or.inr (Or.inl rfl)
          | some obytes =>
              simp only [h2] at h
              cases h3 : utf8Decode ibytes with
              | none => simp only [h3] at h; cases h; exact Or.inr (Or.inr (Or.inl rfl))
              | some i =>
                  simp only [h3] at h
                  cases h4 : utf8Decode obytes with
                  | none =>
                      simp only [h4] at h; cases h
                      exact Or.inr (Or.inr (Or.inr rfl))
                  | some o =>
                      simp only [h4] at h
                      exact ih _ m h

theorem handleErr_ne_noCases (c iE oE : String)
    (hc : c.data.head? = some (Char.ofNat 73)) :
    ¬ (handleErrMsg c = noCasesMsg iE oE) := by
  intro h
  have h1 : (handleErrMsg c).data.head? = some (Char.ofNat 73) := by
    simp [handleErrMsg, String.data_append, List.head?_append, hc]
  have h2 : (noCasesMsg iE oE).data.head? = some (Char.ofNat 78) := rfl
  rw [h, h2] at h1
  exact absurd (Option.some.inj h1) (by decide)

/-- C4: the pass/fail comparison declares expected and actual output equal
iff they are identical after trimming leading and trailing whitespace from
each string as a whole (the trimmed text is an inner segment of the
original, surrounded only by whitespace); internal whitespace is not
normalized.  In particular `equal(" 5\n","5")`, `equal("a\r\n","a\n")` are
true and `equal("5 6","56")`, `equal("a\nb","a\n b")` are false. -/
theorem c4_comparator_outer_trim :
    (∀ e a : String, outputMatches e a = true ↔ rustTrim e = rustTrim a)
    ∧ (∀ s : String, ∃ l r, s.data = l ++ (rustTrim s).data ++ r
        ∧ l.all isRustWhitespace = true ∧ r.all isRustWhitespace = true)
    ∧ outputMatches " 5\n" "5" = true
    ∧ outputMatches "5 6" "56" = false
    ∧ outputMatches "a\r\n" "a\n" = true
    ∧ outputMatches "a\nb" "a\n b" = false := by
  refine ⟨?_, ?_, by decide, by decide, by decide, by decide⟩
  · intro e a
    exact beq_iff_eq
  · intro s
    refine ⟨s.data.takeWhile isRustWhitespace,
      ((s.data.dropWhile isRustWhitespace).reverse.takeWhile isRustWhitespace).reverse,
      ?_, ?_, ?_⟩
    · conv_lhs => rw [← List.takeWhile_append_dropWhile (p := isRustWhitespace) (l := s.data)]
      rw [List.append_assoc]
      congr 1
      have h := List.takeWhile_append_dropWhile (p := isRustWhitespace)
        (l := (s.data.dropWhile isRustWhitespace).reverse)
      have h2 := congrArg List.reverse h
      simp only [List.reverse_append, List.reverse_reverse] at h2
      exact h2.symm
    · rw [List.all_eq_true]
      intro x hx
      exact List.mem_takeWhile_imp hx
    · rw [List.all_eq_true]
      intro x hx
      exact List.mem_takeWhile_imp (List.mem_reverse.mp hx)

/-- C4 witness: the comparator applied at a concrete pair. -/
theorem c4_comparator_outer_trim_witness :
    rustTrim " 5\n" = rustTrim "5" ∧ outputMatches " 5\n" "5" = true :=
  ⟨by decide, (c4_comparator_outer_trim.1 " 5\n" "5").mpr (by decide)⟩

/-- C5: case iteration order is numeric ascending (sorted by the parsed
`i32` key and a permutation of the key set) when every case name parses as
an integer, and lexicographic over the entire set otherwise; the rule is
all-or-nothing.  Concretely `{2,10,1}` iterates `1,2,10` and `{b,a10,a2}`
iterates `a10,a2,b`. -/
theorem c5_case_order (t : Test) :
    ((t.cases.map Prod.fst).all (fun c => (parseI32 c).isSome) = true →
        List.Sorted numLe t.get_sorted_case_names
        ∧ List.Perm t.get_sorted_case_names (t.cases.map Prod.fst))
    ∧ ((t.cases.map Prod.fst).all (fun c => (parseI32 c).isSome) = false →
        List.Sorted lexLe t.get_sorted_case_names
        ∧ List.Perm t.get_sorted_case_names (t.cases.map Prod.fst))
    ∧ exNumTest.get_sorted_case_names = ["1", "2", "10"]
    ∧ exLexTest.get_sorted_case_names = ["a10", "a2", "b"] := by
  refine ⟨?_, ?_, by decide, by decide⟩
  · intro h
    simp only [Test.get_sorted_case_names, h, if_true]
    exact ⟨@List.sorted_insertionSort String numLe _
        ⟨fun a b => Int.le_total (numKey a) (numKey b)⟩
        ⟨fun _ _ _ ha hb => Int.le_trans ha hb⟩ _,
      List.perm_insertionSort _ _⟩
  · intro h
    simp only [Test.get_sorted_case_names, h, Bool.false_eq_true, if_false]
    exact ⟨@List.sorted_insertionSort String lexLe _
        ⟨fun a b => charsLe_total a.data b.data⟩
        ⟨fun a b c => charsLe_trans a.data b.data c.data⟩ _,
      List.perm_insertionSort _ _⟩

/-- C5 witness: the numeric branch applied to the concrete test. -/
theorem c5_case_order_witness :
    List.Sorted numLe exNumTest.get_sorted_case_names
    ∧ List.Perm exNumTest.get_sorted_case_names (exNumTest.cases.map Prod.fst) :=
  (c5_case_order exNumTest).1 (by decide)

/-- C10: `Test::set_cases` is atomic — a `None` selection leaves the test
unchanged; a selection containing a name absent from the case map yields an
error that names that case (the name occurs inside the message) with the
test unchanged; and when all selected names are present the case map
becomes exactly its restriction to the selected names. -/
theorem c10_set_cases_atomic (t : Test) (cs : List String) :
    (t.set_cases none = (t, none))
    ∧ ((∃ c ∈ cs, t.cases.lookup c = none) →
        ∃ c, c ∈ cs ∧ t.cases.lookup c = none
          ∧ t.set_cases (some cs) = (t, some (caseNotFoundMsg c))
          ∧ List.IsInfix c.data (caseNotFoundMsg c).data)
    ∧ ((∀ c ∈ cs, (t.cases.lookup c).isSome = true) →
        ∃ t2, t.set_cases (some cs) = (t2, none)
          ∧ ∀ k, t2.cases.lookup k =
              if cs.contains k then t.cases.lookup k else none) := by
  refine ⟨rfl, ?_, ?_⟩
  · intro h
    obtain ⟨c, hc, hn, hrun⟩ := setCasesGo_err t cs [] h
    exact ⟨c, hc, hn, by simp [Test.set_cases, hrun],
      isInfix_append_mid "Test case with name \"" c "\" does not exist"⟩
  · intro h
    obtain ⟨m, hm, hl⟩ := setCasesGo_ok t cs [] h
    refine ⟨{ t with cases := m }, by simp [Test.set_cases, hm], ?_⟩
    intro k
    simpa using hl k

/-- C10 witness: restriction of the one-case test to the selection `1`. -/
theorem c10_set_cases_atomic_witness :
    ∃ t2, oneCaseTest.set_cases (some ["1"]) = (t2, none)
      ∧ ∀ k, t2.cases.lookup k =
          if ["1"].contains k then oneCaseTest.cases.lookup k else none :=
  (c10_set_cases_atomic oneCaseTest ["1"]).2.2 (by decide)

/-- C8 counterexample: with input routing `FILE "data"` and input extension
`in`, the session writes the case input to `data` inside the working
directory, not to `data.in` as the claim states — the stored path is joined
verbatim and no extension is appended at run time. -/
theorem c8_counterexample :
    fileRoutedTest.inputRouting = IOType.FILE "data"
    ∧ fileRoutedTest.input_extension = "in"
    ∧ (fileRoutedTest.get_files "/tmp/t").1 = some "/tmp/t/data"
    ∧ launchFs rd8 (fun _ => none) { input := "42\n", output := "" } "/tmp/t/data"
        = some (utf8Encode "42\n")
    ∧ launchFs rd8 (fun _ => none) { input := "42\n", output := "" } "/tmp/t/data.in"
        = none := by decide

/-- C8 (amended): with input routing `FILE p`, before the child is launched
the session writes the case's input text, byte for byte, to the file named
by exactly the stored relative path `p` inside the working directory — no
extension is appended at run time (paths built by the add command already
carry the input extension). -/
theorem c8_file_input_written (t : Test) (temp p : String)
    (h : t.inputRouting = IOType.FILE p) :
    (t.get_files temp).1 = some (pathJoin temp p)
    ∧ ∀ (rd : RunDirM) (fs : FileSys) (tc : TestCase),
        rd.input_file = some (pathJoin temp p) →
        launchFs rd fs tc (pathJoin temp p) = some (utf8Encode tc.input) := by
  constructor
  · simp [Test.get_files, h]
  · intro rd fs tc hrd
    simp [launchFs, hrd, fsWrite]

/-- C8 witness: the file-routed fixture, evaluated. -/
theorem c8_file_input_written_witness :
    (fileRoutedTest.get_files "/tmp/t").1 = some (pathJoin "/tmp/t" "data")
    ∧ launchFs rd8 (fun _ => none) { input := "42\n", output := "" }
        (pathJoin "/tmp/t" "data") = some (utf8Encode "42\n") := by
  have h := c8_file_input_written fileRoutedTest "/tmp/t" "data" (by decide)
  exact ⟨h.1, h.2 rd8 (fun _ => none) { input := "42\n", output := "" } (by decide)⟩

/-- C9 counterexample: the input file `a.b.in` has no sibling with its stem
`a.b` and the output extension (`a.b.out` does not exist), so the claim says
it is skipped — but `fill_cases` pairs it with `a.out` (because
`set_extension` replaces the `b` of the stem `a.b`) and produces the case
`a.b`. -/
theorem c9_counterexample :
    dottedFsExists "f/a.b.out" = false
    ∧ (rustFileStemExt "a.b.in").1 = "a.b"
    ∧ Test.fill_cases dottedTest "f" dottedEntries dottedFsExists dottedContents
        = .ok { dottedTest with cases := [("a.b", { input := "1", output := "2" })] } := by
  decide

/-- C9 (amended): every input-extension entry whose computed sibling —
obtained by setting the output extension on the entry's stem, which for a
dotted stem replaces the stem's own last extension — does not exist is
silently excluded from the scanned pairs; if zero pairs survive,
`fill_cases` fails with the no-cases error, and otherwise that error is
never produced (skipping alone causes no error). -/
theorem c9_scan_filter (t : Test) (folder : String) (entries : List String)
    (fsExists : String → Bool) (contents : String → Option (List Nat)) :
    (∀ name ∈ entries, (rustFileStemExt name).2 = some t.input_extension →
        fsExists (pathJoin folder
          (rustSetExtension (rustFileStemExt name).1 t.output_extension)) = false →
        ((fillPairs t folder entries fsExists).map Prod.fst).contains name = false)
    ∧ ((fillPairs t folder entries fsExists).isEmpty = true →
        t.fill_cases folder entries fsExists contents
          = .err (noCasesMsg t.input_extension t.output_extension))
    ∧ ((fillPairs t folder entries fsExists).isEmpty = false →
        (t.fill_cases folder entries fsExists contents).isErrWith
          (noCasesMsg t.input_extension t.output_extension) = false) := by
  refine ⟨?_, ?_, ?_⟩
  · intro name _ _ hf
    cases hcc : ((fillPairs t folder entries fsExists).map Prod.fst).contains name
    · rfl
    · exfalso
      obtain ⟨pr, hpr, hfst⟩ := List.mem_map.mp (List.elem_iff.mp hcc)
      obtain ⟨a, _, hacc⟩ := List.mem_filterMap.mp hpr
      obtain ⟨h1, _, h3⟩ := fillAccept_some t folder fsExists a pr hacc
      have ha : a = name := h1.symm.trans hfst
      subst ha
      rw [hf] at h3
      cases h3
  · intro h
    simp [Test.fill_cases, h]
  · intro h
    cases hp : fillPairs t folder entries fsExists with
    | nil => rw [hp] at h; cases h
    | cons p rest =>
        have hne : ((p :: rest : List (String × String)).isEmpty = true) = False := by
          simp
        unfold Test.fill_cases
        rw [hp]
        simp only [hne, if_false]
        cases hl : fillLoop folder contents (p :: rest) t.cases with
        | ok m => simp [RustResult.isErrWith]
        | panicked => simp [RustResult.isErrWith]
        | err e =>
            have hneq : e ≠ noCasesMsg t.input_extension t.output_extension := by
              rcases fillLoop_err folder contents _ _ _ hl with h4 | h4 | h4 | h4 <;>
                (rw [h4]; exact handleErr_ne_noCases _ _ _ rfl)
            have hb : (e == noCasesMsg t.input_extension t.output_extension) = false :=
              beq_false_of_ne hneq
            simp [RustResult.isErrWith, hb]

/-- C9 witness: an empty scan is fatal with the no-cases error. -/
theorem c9_scan_filter_witness :
    Test.fill_cases dottedTest "f" [] (fun _ => false) (fun _ => none)
      = .err (noCasesMsg "in" "out") := by
  have h := (c9_scan_filter dottedTest "f" [] (fun _ => false) (fun _ => none)).2.1 (by decide)
  simpa using h

/-- C3 counterexample: a timed-out case named `zebra` stops the session with
the timeout error, but that error does not name the case — `zebra` does not
occur in the message (it names only the timeout value). -/
theorem c3_counterexample :
    RunDir.run rdZebra behTimedOut = ([], .failed (timeoutMsg 100))
    ∧ strContains (timeoutMsg 100) "zebra" = false := by
  decide

/-- C3 (amended): when a case's child does not exit within the timeout and
every earlier case succeeded, the session stops with the terminal timeout
error, which names the timeout value (its decimal rendering occurs in the
message) but not the case; the verdict list contains only the earlier
cases' verdicts, so no verdict is reported for the timed-out case and no
subsequent case is run. -/
theorem c3_timeout_stops_session (rd : RunDirM) (beh : String → CaseBehavior)
    (pre post : List (String × TestCase)) (n : String) (tc : TestCase)
    (hsplit : rd.test.case_iter = pre ++ (n, tc) :: post)
    (hpre : ∀ p ∈ pre, ∃ v, runCase rd p.1 p.2 (beh p.1) = .ok v)
    (ht : (beh n).timedOut = true) :
    RunDir.run rd beh
      = (pre.filterMap (okVerdict rd beh), .failed (timeoutMsg rd.timeout))
    ∧ List.IsInfix (toString rd.timeout).data (timeoutMsg rd.timeout).data := by
  constructor
  · have hcase : runCase rd n tc (beh n) = .err (timeoutMsg rd.timeout) := by
      simp [runCase, ht]
    unfold RunDir.run
    rw [hsplit, runList_append_ok rd beh pre _ hpre]
    simp [runList, hcase]
  · exact isInfix_append_mid "\nProgram timed out after " (toString rd.timeout)
      " milliseconds, if you want to change the timeout, use the --timeout flag"

/-- C3 witness: the `zebra` fixture run under the timing-out environment. -/
theorem c3_timeout_stops_session_witness :
    RunDir.run rdZebra behTimedOut = ([], SessionEnd.failed (timeoutMsg 100))
    ∧ List.IsInfix (toString (100 : Nat)).data (timeoutMsg 100).data := by
  have h := c3_timeout_stops_session rdZebra behTimedOut [] [] "zebra" tc0
    (by decide) (by intro p hp; exact absurd hp (List.not_mem_nil p)) rfl
  simpa using h

/-- C7 counterexample: a case named `zebra` whose child exits with code 3
stops the session with the non-zero-exit error, but that error does not
name the case — `zebra` does not occur in the message (it names only the
exit code). -/
theorem c7_counterexample :
    RunDir.run rdZebra behExit3 = ([], .failed (nonZeroExitMsg 3))
    ∧ strContains (nonZeroExitMsg 3) "zebra" = false := by
  decide

/-- C7 (amended): when a case's child exits within the timeout with a
non-zero status (and not via a signal) and every earlier case succeeded,
the session stops with the terminal non-zero-exit error, which includes the
exit code (its decimal rendering occurs in the message) but not the case
name; the verdict list contains only the earlier cases' verdicts, so no
verdict is reported for that case and no later case is run. -/
theorem c7_nonzero_exit_stops_session (rd : RunDirM) (beh : String → CaseBehavior)
    (pre post : List (String × TestCase)) (n : String) (tc : TestCase)
    (hsplit : rd.test.case_iter = pre ++ (n, tc) :: post)
    (hpre : ∀ p ∈ pre, ∃ v, runCase rd p.1 p.2 (beh p.1) = .ok v)
    (ht : (beh n).timedOut = false) (hs : (beh n).signaled = false)
    (hc : (beh n).exitCode ≠ 0) :
    RunDir.run rd beh
      = (pre.filterMap (okVerdict rd beh), .failed (nonZeroExitMsg (beh n).exitCode))
    ∧ List.IsInfix (toString (beh n).exitCode).data
        (nonZeroExitMsg (beh n).exitCode).data := by
  constructor
  · have hcase : runCase rd n tc (beh n) = .err (nonZeroExitMsg (beh n).exitCode) := by
      simp [runCase, ht, hs, hc]
    unfold RunDir.run
    rw [hsplit, runList_append_ok rd beh pre _ hpre]
    simp [runList, hcase]
  · exact isInfix_append_end "\nProgram exited with non-zero exit code: "
      (toString (beh n).exitCode)

/-- C7 witness: the `zebra` fixture run under the exit-code-3 environment. -/
theorem c7_nonzero_exit_stops_session_witness :
    RunDir.run rdZebra behExit3 = ([], SessionEnd.failed (nonZeroExitMsg 3))
    ∧ List.IsInfix (toString (3 : Int)).data (nonZeroExitMsg 3).data := by
  have h := c7_nonzero_exit_stops_session rdZebra behExit3 [] [] "zebra" tc0
    (by decide) (by intro p hp; exact absurd hp (List.not_mem_nil p)) rfl rfl (by decide)
  simpa using h

/-- C1 (code bug): with standard output routing, capturing the child's
standard output panics for every successfully exited child.  The run
command built by `RunCommand::new` never pipes stdout, so the spawned
child's stdout handle is `None` and `child.stdout.take().unwrap()` in
`RunDir::run` is a panic — the session crashes instead of proceeding to the
verdict. -/
theorem c1_stdout_capture_panics :
    RunCommand.new "/tmp/t" "/home/u/sol.py" "17" cfg0 okCompiler (fun _ => false)
      = .ok pyCmd
    ∧ pyCmd.stdoutPiped = false
    ∧ RunDir.new oneCaseTest none "/home/u/sol.py" "17" false false 1000 cfg0 "/tmp/t"
        okCompiler (fun _ => false) = .ok rdStd
    ∧ (behCapture "1").timedOut = false
    ∧ (behCapture "1").signaled = false
    ∧ (behCapture "1").exitCode = 0
    ∧ runCase rdStd "1" tc0 (behCapture "1") = .panicked
    ∧ RunDir.run rdStd behCapture = ([], .panicked) := by
  decide

/-- C2 (code bug): for C++ sources a failing compile (exit 1, stderr
`boom`) makes `RunCommand::new` — and hence `RunDir::new`, so no case is
ever executed — return the terminal compile error carrying the compiler's
captured output verbatim; but for C sources the very same failing compiler
is ignored and `RunCommand::new` happily returns the `./output` run
command. -/
theorem c2_c_compile_failure_ignored :
    (failCompiler (gccCommand cfg0)).exitCode = 1
    ∧ RunCommand.new "/tmp/t" "/home/u/sol.c" "17" cfg0 failCompiler (fun _ => false)
        = .ok { program := "./output", args := [], stdinFile := none,
                stdoutPiped := false, currentDir := none }
    ∧ RunCommand.new "/tmp/t" "/home/u/sol.cpp" "17" cfg0 failCompiler (fun _ => false)
        = .err (compileFailMsg 1 "" "boom")
    ∧ List.IsInfix ("boom").data (compileFailMsg 1 "" "boom").data
    ∧ (∀ (test : Test) (argCases : Option (List String)) (si co : Bool)
         (tmo : Nat) (temp : String),
        (RunDir.new test argCases "/home/u/sol.cpp" "17" si co tmo cfg0 temp
          failCompiler (fun _ => false)).isOk = false) := by
  refine ⟨by decide, by decide, by decide,
    isInfix_append_end ("Failed to compile file, exited with non-zero exit code: " ++
      toString (1 : Int) ++ "\nStdout: " ++ "" ++ "\nStderr: ") "boom", ?_⟩
  intro test argCases si co tmo temp
  have hcpp : RunCommand.new temp "/home/u/sol.cpp" "17" cfg0 failCompiler (fun _ => false)
      = .err (compileFailMsg 1 "" "boom") := by
    set_option maxRecDepth 4000 in rfl
  unfold RunDir.new
  rcases h : test.set_cases argCases with ⟨t2, e⟩
  cases e with
  | some msg => simp [RustResult.isOk]
  | none => simp [hcpp, RustResult.isOk]

/-- C6 (code bug): for a Java source `Main.java` whose class file
`Main.class` exists in the working directory, the resolved run command is
`java` executed (at case time) with the session working directory as its
current directory — but its argument keeps the `.class` extension
(`set_extension` then `file_name` yields `Main.class`), not the bare class
name `Main` that the claim states. -/
theorem c6_java_arg_keeps_class_extension :
    rustSetExtension "Main" "class" = "Main.class"
    ∧ RunCommand.new "/tmp/t" "/home/u/Main.java" "17" cfg0 okCompiler fsJava
        = .ok { program := "java", args := ["Main.class"], stdinFile := none,
                stdoutPiped := false, currentDir := none }
    ∧ ("Main.class" == "Main") = false
    ∧ (launchCfg rdJava).currentDir = some "/tmp/t"
    ∧ (launchCfg rdJava).program = "java"
    ∧ (launchCfg rdJava).args = ["Main.class"] := by
  decide
